import Mathlib

/-!
Shallow embedding of the pin-fulfillment allocator of the Enlineacoins
repository (src/pin_manager.py, src/inefable_api_client.py, src/app.py).

The sqlite table `pines_freefire` (id INTEGER PRIMARY KEY AUTOINCREMENT,
monto_id, pin_codigo, usado BOOLEAN DEFAULT FALSE) is modelled as a list of
rows in insertion (rowid) order together with the next autoincrement id.
The vendor HTTP endpoint is modelled as an oracle `vendor : Nat → HttpOutcome`
giving the outcome of the i-th HTTP request made in the session; a `World`
threads the database, the number of vendor calls issued so far and the number
of inventory reads issued so far.  Timestamps, logging and the fields of the
Python result dictionaries that no caller reads are omitted.
-/

/-- One row of the `pines_freefire` table. -/
structure PinRow where
  id : Nat
  montoId : Nat
  pinCodigo : String
  usado : Bool
deriving DecidableEq, Repr

/-- The `pines_freefire` table: rows in rowid order plus the next
autoincrement id. -/
structure DBState where
  pins : List PinRow
  nextId : Nat
deriving DecidableEq, Repr

/-- Rows matching `monto_id = ? AND usado = FALSE`, in rowid order. -/
def freePins (m : Nat) (db : DBState) : List PinRow :=
  db.pins.filter (fun p => p.montoId == m && !p.usado)

/-- SELECT COUNT(*) FROM pines_freefire WHERE monto_id = ? AND usado = FALSE. -/
def stockCount (m : Nat) (db : DBState) : Nat :=
  (freePins m db).length

/-- SELECT * FROM pines_freefire WHERE monto_id = ? AND usado = FALSE LIMIT 1
(the row with the smallest rowid, i.e. the first in insertion order). -/
def firstFreePin (m : Nat) (db : DBState) : Option PinRow :=
  (freePins m db).head?

/-- DELETE FROM pines_freefire WHERE id = ?. -/
def deletePinId (pid : Nat) (db : DBState) : DBState :=
  { db with pins := db.pins.filter (fun p => !(p.id == pid)) }

/-- INSERT INTO pines_freefire (monto_id, pin_codigo) VALUES (?, ?);
`usado` defaults to FALSE, the id is the next autoincrement value. -/
def insertPin (m : Nat) (code : String) (db : DBState) : DBState :=
  { pins := db.pins ++ [{ id := db.nextId, montoId := m, pinCodigo := code, usado := false }],
    nextId := db.nextId + 1 }

/-- SELECT id FROM pines_freefire WHERE pin_codigo = ? AND monto_id = ?
(no `usado` filter), as a Boolean existence test. -/
def pinExists (m : Nat) (code : String) (db : DBState) : Bool :=
  db.pins.any (fun p => p.pinCodigo == code && p.montoId == m)

/-- The world threaded through the allocator: the database, the number of
vendor HTTP requests issued so far (index into the vendor oracle) and the
number of inventory SELECT statements issued so far. -/
structure World where
  db : DBState
  vendorCalls : Nat
  dbReads : Nat
deriving DecidableEq, Repr

/-- Outcome of one HTTP request to the vendor endpoint, as seen by
`InefableAPIClient._make_request`: a network timeout, a connection error, a
non-2xx response (raise_for_status), a 200 body that is not valid JSON, or a
parsed JSON object (its optional `status` field and its optional `data` field
when that field is a string-valued object). -/
inductive HttpOutcome
  | timeout
  | connError
  | httpError (code : Nat)
  | okText (body : String)
  | okJson (status : Option String) (data : Option (List (String × String)))
deriving DecidableEq, Repr

/-- The value of the `data` key of a result dictionary: plain response text
or a parsed JSON object. -/
inductive DataVal
  | txt (s : String)
  | obj (d : List (String × String))
deriving DecidableEq, Repr

/-- A vendor-side result dictionary; fields model the dictionary keys that
some caller in the repository reads (`status`, `pin_code`, `error_type`,
`message`, `available`, `data`, `raw_response`).  A key that is absent from
the Python dictionary is `none` (`raw_response` is only ever set to True). -/
structure Resp where
  status : Option String := none
  pinCode : Option String := none
  errorType : Option String := none
  message : Option String := none
  available : Option Bool := none
  data : Option DataVal := none
  rawResponse : Bool := false
deriving DecidableEq, Repr

/-- Python truthiness of an optional string (`if pin_code:`). -/
def truthyOpt : Option String → Bool
  | some s => !(s == "")
  | none => false

/-- Python `a or b` on optional strings (an empty string is falsy). -/
def pyOr (a b : Option String) : Option String :=
  match a with
  | some s => if s == "" then b else some s
  | none => b

/-- Python `str()` of the `data` field, used by `check_stock_availability`
(`str(result.get('data', ''))`); a missing key renders as the empty string
and a JSON object as its Python repr. -/
def pyReprDict (d : List (String × String)) : String :=
  "\x7b" ++ String.intercalate ", "
    (d.map (fun kv => "\x27" ++ kv.1 ++ "\x27: \x27" ++ kv.2 ++ "\x27")) ++ "\x7d"

def dataToText : Option DataVal → String
  | some (DataVal.txt s) => s
  | some (DataVal.obj d) => pyReprDict d
  | none => ""

/-- Case-insensitive literal match of `kw` against an initial segment of the
text (Python `re.IGNORECASE`; ASCII case folding). -/
def ciPrefixMatch : List Char → List Char → Bool
  | [], _ => true
  | _ :: _, [] => false
  | k :: ks, c :: cs => (k.toLower == c.toLower) && ciPrefixMatch ks cs

/-- Python `needle in haystack` on strings. -/
def substrSearch (need : List Char) : List Char → Bool
  | [] => need.isEmpty
  | c :: rest => need.isPrefixOf (c :: rest) || substrSearch need rest

def containsSubstr (hay need : String) : Bool :=
  substrSearch need.toList hay.toList

/-- Python `str.lower()` (ASCII case folding, character by character;
implemented over the character list so that it evaluates by kernel
reduction). -/
def strLower (s : String) : String :=
  String.mk (s.toList.map Char.toLower)

/-- A character matched by the regex class `[:\s]`. -/
def isSepChar (c : Char) : Bool :=
  c == ':' || c.isWhitespace

/-- Leftmost-match search: try the positional matcher at every start
position of the text (including the empty suffix), returning the first
success, as Python `re.search` does. -/
def scanStr {α : Type} (p : List Char → Option α) : List Char → Option α
  | [] => p []
  | c :: rest =>
    match p (c :: rest) with
    | some r => some r
    | none => scanStr p rest

/-- Positional matcher for the regex `KW[:\s]*([A-Z0-9]{lo,hi})` with
`re.IGNORECASE`: the literal keyword, a greedy run of separators, then a
greedy run of `lo` to `hi` ASCII alphanumerics (the capture group).  The
separator class and the alphanumeric class are disjoint, so the greedy
semantics need no backtracking. -/
def kwPatAt (kw : List Char) (lo hi : Nat) (t : List Char) : Option (List Char) :=
  if ciPrefixMatch kw t then
    let afterSep := (t.drop kw.length).dropWhile isSepChar
    let run := afterSep.takeWhile Char.isAlphanum
    if lo ≤ run.length then some (run.take hi) else none
  else none

/-- Positional matcher for the regex `([A-Z0-9]{lo,hi})` with
`re.IGNORECASE`. -/
def bareRunAt (lo hi : Nat) (t : List Char) : Option (List Char) :=
  let run := t.takeWhile Char.isAlphanum
  if lo ≤ run.length then some (run.take hi) else none

def firstSome {α : Type} : List (Option α) → Option α
  | [] => none
  | some x :: _ => some x
  | none :: rest => firstSome rest

/-- InefableAPIClient._extract_pin_from_text: the ordered pattern list
(`PIN[:\s]*([A-Z0-9]{10,20})`, `CODIGO…`, `CODE…`, a bare
`([A-Z0-9]{12,16})` token, `Pin…`, `Código…`, all IGNORECASE); the first
leftmost match whose stripped capture group is 10 to 20 characters long is
returned. -/
def extract_pin_from_text (text : String) : Option String :=
  let l := text.toList
  let validate : Option (List Char) → Option String := fun g =>
    match g with
    | some cs =>
      let pin := (String.mk cs).trim
      if 10 ≤ pin.length ∧ pin.length ≤ 20 then some pin else none
    | none => none
  firstSome [
    validate (scanStr (kwPatAt "pin".toList 10 20) l),
    validate (scanStr (kwPatAt "codigo".toList 10 20) l),
    validate (scanStr (kwPatAt "code".toList 10 20) l),
    validate (scanStr (bareRunAt 12 16) l),
    validate (scanStr (kwPatAt "pin".toList 10 20) l),
    validate (scanStr (kwPatAt "código".toList 10 20) l)]

/-- InefableAPIClient._make_request, as a pure function of the HTTP outcome:
network failures are caught and mapped to typed error dictionaries, a non-2xx
status raised by `raise_for_status` is caught as a RequestException, a 200
non-JSON body is wrapped as `{'status': 'success', 'data': text,
'raw_response': True}`, and a parsed JSON value is returned as-is. -/
def makeRequest : HttpOutcome → Resp
  | HttpOutcome.timeout =>
    { status := some "error",
      message := some "Timeout al conectar con la API externa",
      errorType := some "timeout" }
  | HttpOutcome.connError =>
    { status := some "error",
      message := some "Error de conexión con la API externa",
      errorType := some "connection" }
  | HttpOutcome.httpError code =>
    { status := some "error",
      message := some ("Error en petición: HTTP " ++ toString code),
      errorType := some "request" }
  | HttpOutcome.okText body =>
    { status := some "success", data := some (DataVal.txt body), rawResponse := true }
  | HttpOutcome.okJson st d =>
    { status := st, data := (d.map DataVal.obj) }

/-- InefableAPIClient._make_request as a stateful step: consumes the next
vendor oracle outcome. -/
def make_request (vendor : Nat → HttpOutcome) (w : World) : Resp × World :=
  (makeRequest (vendor w.vendorCalls), { w with vendorCalls := w.vendorCalls + 1 })

/-- InefableAPIClient.test_connection. -/
def test_connection (vendor : Nat → HttpOutcome) (w : World) : (Bool × String) × World :=
  let (result, w1) := make_request vendor w
  if result.status = some "success" then
    ((true, "Conexión exitosa con API externa"), w1)
  else
    ((false, result.message.getD "Error desconocido"), w1)

/-- InefableAPIClient.is_available. -/
def is_available (vendor : Nat → HttpOutcome) (w : World) : Bool × World :=
  let (r, w1) := test_connection vendor w
  (r.1, w1)

/-- The key set of `monto_mapping` is exactly 1..9 (and the mapping is the
identity on it). -/
def validMonto (m : Nat) : Prop := 1 ≤ m ∧ m ≤ 9

instance (m : Nat) : Decidable (validMonto m) := by
  unfold validMonto; infer_instance

/-- InefableAPIClient._process_pin_response (the fields of the returned
dictionaries that callers read). -/
def process_pin_response (response : Resp) : Resp :=
  if response.rawResponse then
    let responseText :=
      match response.data with
      | some (DataVal.txt s) => s
      | _ => ""
    match extract_pin_from_text responseText with
    | some pc => { status := some "success", pinCode := some pc }
    | none =>
      { status := some "error",
        message := some "No se pudo extraer el pin de la respuesta",
        errorType := some "parse_error" }
  else
    match response.data with
    | some (DataVal.obj d) =>
      let pc := pyOr (pyOr (d.lookup "pin") (d.lookup "codigo")) (d.lookup "pin_code")
      if truthyOpt pc then
        { status := some "success", pinCode := pc }
      else
        { status := some "error",
          message := some "Pin no encontrado en respuesta JSON",
          errorType := some "parse_error" }
    | _ =>
      { status := some "error",
        message := some "Formato de respuesta no reconocido",
        errorType := some "format_error" }

/-- The result of InefableAPIClient.request_pin as a pure function of the
HTTP outcome (after monto validation). -/
def pinFromOutcome (o : HttpOutcome) : Resp :=
  let result := makeRequest o
  if result.status = some "success" then process_pin_response result else result

/-- InefableAPIClient.request_pin. -/
def request_pin (vendor : Nat → HttpOutcome) (montoId : Nat) (w : World) : Resp × World :=
  if validMonto montoId then
    let (result, w1) := make_request vendor w
    (if result.status = some "success" then process_pin_response result else result, w1)
  else
    ({ status := some "error",
       message := some ("Monto ID " ++ toString montoId ++ " no válido. Debe estar entre 1 y 9."),
       errorType := some "validation" }, w)

/-- The keyword list of InefableAPIClient.check_stock_availability. -/
def noStockKeywords : List String :=
  ["sin stock", "no stock", "agotado", "no disponible",
   "out of stock", "unavailable", "insufficient",
   "no hay", "temporalmente no disponible", "error",
   "no se pudo", "fallido", "failed"]

/-- The pin-pattern confirmation step of check_stock_availability: the
patterns `[A-Z0-9]{10,20}`, `PIN[:\s]*[A-Z0-9]+`, `CODIGO[:\s]*[A-Z0-9]+`
(IGNORECASE, existence of a match only). -/
def hasPinPattern (t : String) : Bool :=
  (scanStr (bareRunAt 10 10) t.toList).isSome ||
  (scanStr (kwPatAt "pin".toList 1 1) t.toList).isSome ||
  (scanStr (kwPatAt "codigo".toList 1 1) t.toList).isSome

/-- InefableAPIClient.check_stock_availability. -/
def check_stock_availability (vendor : Nat → HttpOutcome) (montoId : Nat) (w : World) :
    Resp × World :=
  if validMonto montoId then
    let (result, w1) := make_request vendor w
    if result.status = some "success" then
      let responseText := strLower (dataToText result.data)
      let noStockSeen := noStockKeywords.any (fun kw => containsSubstr responseText kw)
      let hasStock := if noStockSeen then hasPinPattern responseText else true
      ({ status := some "success",
         available := some hasStock,
         message := some (if hasStock then "Stock disponible" else "Sin stock en API externa") },
       w1)
    else
      ({ status := some "error",
         available := some false,
         message := some "Error al verificar stock" }, w1)
  else
    ({ status := some "error",
       available := some false,
       message := some ("Monto ID " ++ toString montoId ++ " no válido") }, w)

/-- PinManager.get_local_stock for a specific monto_id (a COUNT query; one
inventory read). -/
def get_local_stock (montoId : Nat) (w : World) : Nat × World :=
  (stockCount montoId w.db, { w with dbReads := w.dbReads + 1 })

/-- PinManager.get_local_pin (a SELECT ... LIMIT 1 query; one inventory
read). -/
def get_local_pin (montoId : Nat) (w : World) : Option PinRow × World :=
  (firstFreePin montoId w.db, { w with dbReads := w.dbReads + 1 })

/-- PinManager.remove_local_pin. -/
def remove_local_pin (pid : Nat) (w : World) : World :=
  { w with db := deletePinId pid w.db }

/-- PinManager.add_local_pin: refuses a (pin_codigo, monto_id) pair that is
already present (the existence SELECT is one inventory read), otherwise
inserts the row. -/
def add_local_pin (montoId : Nat) (pinCode : String) (w : World) : (Bool × String) × World :=
  let w1 := { w with dbReads := w.dbReads + 1 }
  if pinExists montoId pinCode w.db then
    ((false, "Pin ya existe en el stock"), w1)
  else
    ((true, "Pin agregado exitosamente"), { w1 with db := insertPin montoId pinCode w1.db })

/-- One obtained pin of PinManager.request_multiple_pins
(`{'pin_code': …, 'source': …}`). -/
structure ObtainedPin where
  pinCode : String
  source : String
deriving DecidableEq, Repr

/-- Result dictionary of PinManager.request_multiple_pins; keys absent from
a branch are `none`. -/
structure MultiResult where
  status : String
  pins : Option (List ObtainedPin) := none
  cantidadSolicitada : Option Int := none
  cantidadObtenida : Option Nat := none
  localStock : Option Nat := none
  errorType : Option String := none
  message : Option String := none
  sourcesUsed : Option (List String) := none
deriving DecidableEq, Repr

/-- Result dictionary of PinManager.request_pin_with_fallback; keys absent
from a branch are `none`. -/
structure FallbackResult where
  status : String
  pinCode : Option String := none
  source : Option String := none
  errorType : Option String := none
  message : Option String := none
  localStock : Option Nat := none
  stockRemaining : Option Nat := none
deriving DecidableEq, Repr

/-- The local-stock loop of PinManager.request_multiple_pins (lines 225-235):
`for i in range(k)` take one free pin and delete it, breaking as soon as
`get_local_pin` returns no row. -/
def takeLocalLoop (montoId : Nat) : Nat → World → List ObtainedPin × World
  | 0, w => ([], w)
  | k + 1, w =>
    let (pin?, w1) := get_local_pin montoId w
    match pin? with
    | some p =>
      let w2 := remove_local_pin p.id w1
      let (rest, w3) := takeLocalLoop montoId k w2
      ({ pinCode := p.pinCodigo, source := "local_stock" } :: rest, w3)
    | none => ([], w1)

/-- The external loop of PinManager.request_multiple_pins (lines 242-257):
`for i in range(k)` request one pin from the vendor; on success with a truthy
pin code append it and re-insert it locally via add_local_pin, on success
with a falsy pin code skip, on error break. -/
def externalLoop (vendor : Nat → HttpOutcome) (montoId : Nat) :
    Nat → World → List ObtainedPin × World
  | 0, w => ([], w)
  | k + 1, w =>
    let (res, w1) := request_pin vendor montoId w
    if res.status = some "success" then
      match res.pinCode with
      | some pc =>
        if pc = "" then
          externalLoop vendor montoId k w1
        else
          let (_, w2) := add_local_pin montoId pc w1
          let (rest, w3) := externalLoop vendor montoId k w2
          ({ pinCode := pc, source := "inefable_api" } :: rest, w3)
      | none => externalLoop vendor montoId k w1
    else
      ([], w1)

/-- PinManager.request_multiple_pins.  (The Python `set` used for
`sources_used` is modelled as first-occurrence deduplication.) -/
def request_multiple_pins (vendor : Nat → HttpOutcome) (montoId : Nat) (cantidad : Int)
    (useExternalApi : Bool) (w : World) : MultiResult × World :=
  if cantidad ≤ 0 then
    ({ status := "error",
       message := some "La cantidad debe ser mayor a 0",
       errorType := some "validation" }, w)
  else
    let (localStock, w1) := get_local_stock montoId w
    let pinesDesdeLocal : Int := min cantidad (localStock : Int)
    let pinesDesdeExterna : Int := cantidad - pinesDesdeLocal
    let (obtainedLocal, w2) := takeLocalLoop montoId pinesDesdeLocal.toNat w1
    let (obtainedExt, w3) :=
      if 0 < pinesDesdeExterna ∧ useExternalApi = true then
        let (avail, wa) := is_available vendor w2
        if avail then externalLoop vendor montoId pinesDesdeExterna.toNat wa
        else ([], wa)
      else ([], w2)
    let pines := obtainedLocal ++ obtainedExt
    if (pines.length : Int) = cantidad then
      ({ status := "success",
         pins := some pines,
         cantidadSolicitada := some cantidad,
         cantidadObtenida := some pines.length,
         sourcesUsed := some (pines.map ObtainedPin.source).eraseDups }, w3)
    else if 0 < pines.length then
      ({ status := "partial_success",
         pins := some pines,
         cantidadSolicitada := some cantidad,
         cantidadObtenida := some pines.length,
         message := some "Solo se pudieron obtener menos pines de los solicitados",
         sourcesUsed := some (pines.map ObtainedPin.source).eraseDups }, w3)
    else
      ({ status := "error",
         message := some "No se pudieron obtener pines",
         errorType := some "no_pins_available",
         cantidadSolicitada := some cantidad,
         localStock := some localStock }, w3)

/-- The external-fallback tail of PinManager.request_pin_with_fallback
(lines 135-185), reached when no local pin was returned. -/
def fallbackExternal (vendor : Nat → HttpOutcome) (montoId : Nat) (useExternalApi : Bool)
    (localStock : Nat) (w : World) : FallbackResult × World :=
  if useExternalApi then
    let (avail, w1) := is_available vendor w
    if avail then
      let (ext, w2) := request_pin vendor montoId w1
      if ext.status = some "success" then
        let pc := ext.pinCode
        let w3 := if truthyOpt pc then (add_local_pin montoId (pc.getD "") w2).2 else w2
        ({ status := "success",
           pinCode := pc,
           source := some "inefable_api",
           localStock := some localStock }, w3)
      else
        ({ status := "error",
           message := some "Stock local agotado y error en API externa",
           errorType := some "external_api_error",
           localStock := some localStock }, w2)
    else
      ({ status := "error",
         message := some "Stock local agotado y API externa no disponible",
         errorType := some "no_stock_no_api",
         localStock := some localStock }, w1)
  else
    ({ status := "error",
       message := some "Stock local agotado",
       errorType := some "no_local_stock",
       localStock := some localStock }, w)

/-- PinManager.request_pin_with_fallback. -/
def request_pin_with_fallback (vendor : Nat → HttpOutcome) (montoId : Nat)
    (useExternalApi : Bool) (w : World) : FallbackResult × World :=
  let (localStock, w1) := get_local_stock montoId w
  if 0 < localStock then
    let (pin?, w2) := get_local_pin montoId w1
    match pin? with
    | some p =>
      let w3 := remove_local_pin p.id w2
      ({ status := "success",
         pinCode := some p.pinCodigo,
         source := some "local_stock",
         stockRemaining := some (localStock - 1) }, w3)
    | none => fallbackExternal vendor montoId useExternalApi localStock w2
  else
    fallbackExternal vendor montoId useExternalApi localStock w1

/-- Result dictionary of PinManager.check_combined_stock (success branch). -/
structure CombinedResult where
  status : String
  montoId : Nat
  localStock : Nat
  externalAvailable : Bool
  externalMessage : String
  totalAvailable : Bool
  message : String
deriving DecidableEq, Repr

/-- PinManager._get_stock_message. -/
def get_stock_message (localStock : Nat) (externalAvailable : Bool) : String :=
  if 0 < localStock ∧ externalAvailable = true then
    "Stock disponible (" ++ toString localStock ++ " local + API externa)"
  else if 0 < localStock then
    "Stock local disponible (" ++ toString localStock ++ ")"
  else if externalAvailable then
    "Disponible vía API externa"
  else
    "Sin stock disponible"

/-- PinManager.check_combined_stock. -/
def check_combined_stock (vendor : Nat → HttpOutcome) (montoId : Nat) (w : World) :
    CombinedResult × World :=
  let (localStock, w1) := get_local_stock montoId w
  let (avail, w2) := is_available vendor w1
  let (externalAvailable, externalMessage, w3) :=
    if avail then
      let (sc, w') := check_stock_availability vendor montoId w2
      (sc.available.getD false, sc.message.getD "Estado desconocido", w')
    else
      (false, "API externa no disponible", w2)
  ({ status := "success",
     montoId := montoId,
     localStock := localStock,
     externalAvailable := externalAvailable,
     externalMessage := externalMessage,
     totalAvailable := (0 < localStock || externalAvailable),
     message := get_stock_message localStock externalAvailable }, w3)

/-- app.add_pins_batch (src/app.py lines 952-969), insertion loop: each entry
is stripped and inserted when non-empty. -/
def insertBatchLoop (montoId : Nat) : List String → DBState → DBState
  | [], db => db
  | c :: rest, db =>
    let t := c.trim
    if t = "" then insertBatchLoop montoId rest db
    else insertBatchLoop montoId rest (insertPin montoId t db)

/-- app.add_pins_batch: inserts every non-empty stripped code and returns
`len([p for p in pins_list if p.strip()])`. -/
def add_pins_batch (montoId : Nat) (pinsList : List String) (db : DBState) : Nat × DBState :=
  ((pinsList.filter (fun p => !(p.trim == ""))).length, insertBatchLoop montoId pinsList db)

/-- SQL MIN over a list of ids. -/
def minNat? : List Nat → Option Nat
  | [] => none
  | x :: rest =>
    match minNat? rest with
    | none => some x
    | some y => some (min x y)

/-- MIN(id) of the (pin_codigo, monto_id) group of the table that a given
key belongs to. -/
def minIdForKey (pins : List PinRow) (code : String) (m : Nat) : Option Nat :=
  minNat? ((pins.filter (fun q => q.pinCodigo == code && q.montoId == m)).map PinRow.id)

/-- app.remove_duplicate_pins (src/app.py lines 1008-1028):
DELETE FROM pines_freefire WHERE id NOT IN (SELECT MIN(id) FROM
pines_freefire GROUP BY pin_codigo, monto_id); returns the rowcount of the
DELETE. -/
def remove_duplicate_pins (db : DBState) : Nat × DBState :=
  let keep := fun p =>
    db.pins.any (fun q => minIdForKey db.pins q.pinCodigo q.montoId == some p.id)
  let kept := db.pins.filter keep
  (db.pins.length - kept.length, { db with pins := kept })

/-! ### Inventory lemmas -/

lemma freePins_sub (m : Nat) (db : DBState) : (freePins m db).Sublist db.pins :=
  List.filter_sublist db.pins

lemma freePins_nodup_ids (m : Nat) (db : DBState)
    (h : (db.pins.map PinRow.id).Nodup) : ((freePins m db).map PinRow.id).Nodup :=
  h.sublist ((freePins_sub m db).map PinRow.id)

lemma length_filter_ne_id (p : PinRow) :
    ∀ (l : List PinRow), (l.map PinRow.id).Nodup → p ∈ l →
      (l.filter (fun q => !(q.id == p.id))).length + 1 = l.length := by
  intro l
  induction l with
  | nil => intro _ h; simp at h
  | cons a t ih =>
    intro hnd hmem
    simp only [List.map_cons, List.nodup_cons] at hnd
    obtain ⟨ha, ht⟩ := hnd
    rcases List.mem_cons.mp hmem with rfl | hp
    · have hfilter : t.filter (fun q => !(q.id == p.id)) = t := by
        apply List.filter_eq_self.mpr
        intro q hq
        have hne : q.id ≠ p.id := by
          intro he
          exact ha (he ▸ List.mem_map_of_mem PinRow.id hq)
        simp [hne]
      simp [List.filter_cons, hfilter]
    · have hne : a.id ≠ p.id := by
        intro he
        exact ha (he ▸ List.mem_map_of_mem PinRow.id hp)
      have hrec := ih ht hp
      have hcond : (!(a.id == p.id)) = true := by simp [hne]
      simp only [List.filter_cons, hcond, if_true, List.length_cons]
      omega

lemma filter_ne_id_head (l : List PinRow) (p : PinRow)
    (hnd : (l.map PinRow.id).Nodup) (h : l.head? = some p) :
    l.filter (fun q => !(q.id == p.id)) = l.tail := by
  cases l with
  | nil => simp at h
  | cons a t =>
    simp only [List.head?_cons, Option.some.injEq] at h
    subst h
    simp only [List.map_cons, List.nodup_cons] at hnd
    obtain ⟨ha, _⟩ := hnd
    have hfilter : t.filter (fun q => !(q.id == a.id)) = t := by
      apply List.filter_eq_self.mpr
      intro q hq
      have hne : q.id ≠ a.id := by
        intro he
        exact ha (he ▸ List.mem_map_of_mem PinRow.id hq)
      simp [hne]
    simp [List.filter_cons, hfilter]

lemma freePins_deletePinId (m pid : Nat) (db : DBState) :
    freePins m (deletePinId pid db) = (freePins m db).filter (fun q => !(q.id == pid)) := by
  simp only [freePins, deletePinId]
  rw [List.filter_filter, List.filter_filter]
  exact List.filter_congr (fun a _ => Bool.and_comm _ _)

lemma deletePinId_nodup (pid : Nat) (db : DBState)
    (h : (db.pins.map PinRow.id).Nodup) :
    ((deletePinId pid db).pins.map PinRow.id).Nodup :=
  h.sublist ((List.filter_sublist _).map PinRow.id)

/-- Behaviour of the local-stock loop: with pairwise-distinct row ids (the
primary-key invariant of the table), a request for `k` local pins obtains
`min k stock` pins, all tagged `local_stock`, removes exactly that many rows
(and nothing else), and issues no vendor call. -/
lemma takeLocalLoop_spec (m : Nat) :
    ∀ (k : Nat) (w : World), (w.db.pins.map PinRow.id).Nodup →
      (takeLocalLoop m k w).1.length = min k (stockCount m w.db) ∧
      (∀ x ∈ (takeLocalLoop m k w).1, x.source = "local_stock") ∧
      stockCount m (takeLocalLoop m k w).2.db
        = stockCount m w.db - min k (stockCount m w.db) ∧
      (takeLocalLoop m k w).2.vendorCalls = w.vendorCalls ∧
      (takeLocalLoop m k w).2.db.pins.Sublist w.db.pins ∧
      (takeLocalLoop m k w).2.db.pins.length + min k (stockCount m w.db)
        = w.db.pins.length ∧
      (takeLocalLoop m k w).2.db.nextId = w.db.nextId ∧
      ((takeLocalLoop m k w).2.db.pins.map PinRow.id).Nodup := by
  intro k
  induction k with
  | zero =>
    intro w hnd
    refine ⟨by simp [takeLocalLoop], by simp [takeLocalLoop], ?_, ?_, ?_, ?_, ?_, ?_⟩ <;>
      simp [takeLocalLoop, hnd]
  | succ k ih =>
    intro w hnd
    cases hp : firstFreePin m w.db with
    | none =>
      have hnil : freePins m w.db = [] := by
        simpa only [firstFreePin, List.head?_eq_none_iff] using hp
      have hstock : stockCount m w.db = 0 := by simp [stockCount, hnil]
      have hstep : takeLocalLoop m (k + 1) w
          = ([], { w with dbReads := w.dbReads + 1 }) := by
        simp [takeLocalLoop, get_local_pin, hp]
      rw [hstep]
      refine ⟨by simp [hstock], by simp, by simp [hstock], rfl, ?_, by simp [hstock], rfl, hnd⟩
      exact List.Sublist.refl _
    | some p =>
      have hmemfree : p ∈ freePins m w.db := by
        apply List.mem_of_mem_head?
        simp only [firstFreePin] at hp
        simp [hp]
      have hmemdb : p ∈ w.db.pins := (freePins_sub m w.db).subset hmemfree
      have hcons : freePins m w.db = p :: (freePins m w.db).tail := by
        cases hfp : freePins m w.db with
        | nil => rw [firstFreePin, hfp] at hp; simp at hp
        | cons a t =>
          rw [firstFreePin, hfp] at hp
          simp only [List.head?_cons, Option.some.injEq] at hp
          simp [hp]
      have hS : 0 < stockCount m w.db := by
        rw [stockCount, hcons]; simp
      have hfree : freePins m (deletePinId p.id w.db) = (freePins m w.db).tail := by
        rw [freePins_deletePinId]
        exact filter_ne_id_head _ p (freePins_nodup_ids m w.db hnd)
          (by simpa only [firstFreePin] using hp)
      have hstock2 : stockCount m (deletePinId p.id w.db) = stockCount m w.db - 1 := by
        rw [stockCount, hfree]
        conv_rhs => rw [stockCount, hcons]
        simp
      have hlen2 : (deletePinId p.id w.db).pins.length + 1 = w.db.pins.length :=
        length_filter_ne_id p w.db.pins hnd hmemdb
      have hnd2 : ((deletePinId p.id w.db).pins.map PinRow.id).Nodup :=
        deletePinId_nodup p.id w.db hnd
      have hstep : takeLocalLoop m (k + 1) w
          = ({ pinCode := p.pinCodigo, source := "local_stock" }
              :: (takeLocalLoop m k
                  { db := deletePinId p.id w.db, vendorCalls := w.vendorCalls,
                    dbReads := w.dbReads + 1 }).1,
             (takeLocalLoop m k
                  { db := deletePinId p.id w.db, vendorCalls := w.vendorCalls,
                    dbReads := w.dbReads + 1 }).2) := by
        simp [takeLocalLoop, get_local_pin, remove_local_pin, hp]
      have IH := ih { db := deletePinId p.id w.db, vendorCalls := w.vendorCalls,
                      dbReads := w.dbReads + 1 } hnd2
      obtain ⟨ih1, ih2, ih3, ih4, ih5, ih6, ih7, ih8⟩ := IH
      rw [hstep]
      refine ⟨?_, ?_, ?_, ?_, ?_, ?_, ?_, ?_⟩
      · simp only [List.length_cons, ih1, hstock2]
        omega
      · intro x hx
        rcases List.mem_cons.mp hx with rfl | hx2
        · rfl
        · exact ih2 x hx2
      · rw [ih3]; rw [hstock2]; omega
      · rw [ih4]
      · exact ih5.trans (List.filter_sublist _)
      · have ih6c : (takeLocalLoop m k
            { db := deletePinId p.id w.db, vendorCalls := w.vendorCalls,
              dbReads := w.dbReads + 1 }).2.db.pins.length
            + min k (stockCount m w.db - 1) = (deletePinId p.id w.db).pins.length := by
          rw [← hstock2]; exact ih6
        show (takeLocalLoop m k
            { db := deletePinId p.id w.db, vendorCalls := w.vendorCalls,
              dbReads := w.dbReads + 1 }).2.db.pins.length
            + min (k + 1) (stockCount m w.db) = w.db.pins.length
        omega
      · show (takeLocalLoop m k
            { db := deletePinId p.id w.db, vendorCalls := w.vendorCalls,
              dbReads := w.dbReads + 1 }).2.db.nextId = w.db.nextId
        rw [ih7]; exact rfl
      · exact ih8

/-! ### Vendor-side lemmas -/

/-- A vendor outcome on which `request_pin` succeeds with a truthy pin
code. -/
def goodOutcome (o : HttpOutcome) : Prop :=
  (pinFromOutcome o).status = some "success" ∧ truthyOpt (pinFromOutcome o).pinCode = true

instance (o : HttpOutcome) : Decidable (goodOutcome o) := by
  unfold goodOutcome; infer_instance

lemma goodOutcome_makeRequest (o : HttpOutcome) (h : goodOutcome o) :
    (makeRequest o).status = some "success" := by
  obtain ⟨h1, _⟩ := h
  by_cases hc : (makeRequest o).status = some "success"
  · exact hc
  · exfalso
    have he : pinFromOutcome o = makeRequest o := by
      simp [pinFromOutcome, hc]
    rw [he] at h1
    exact hc h1

lemma request_pin_eq (vendor : Nat → HttpOutcome) (m : Nat) (w : World)
    (hm : validMonto m) :
    request_pin vendor m w
      = (pinFromOutcome (vendor w.vendorCalls),
         { w with vendorCalls := w.vendorCalls + 1 }) := by
  simp [request_pin, make_request, pinFromOutcome, hm]

lemma is_available_db (vendor : Nat → HttpOutcome) (w : World) :
    (is_available vendor w).2 = { w with vendorCalls := w.vendorCalls + 1 } := by
  simp only [is_available, test_connection, make_request]
  split <;> rfl

lemma is_available_true (vendor : Nat → HttpOutcome) (w : World)
    (h : (makeRequest (vendor w.vendorCalls)).status = some "success") :
    (is_available vendor w).1 = true := by
  simp [is_available, test_connection, make_request, h]

lemma is_available_false (vendor : Nat → HttpOutcome) (w : World)
    (h : ¬(makeRequest (vendor w.vendorCalls)).status = some "success") :
    (is_available vendor w).1 = false := by
  simp [is_available, test_connection, make_request, h]

lemma add_local_pin_db_cases (m : Nat) (pc : String) (w : World) :
    (add_local_pin m pc w).2.db = w.db ∨
    (add_local_pin m pc w).2.db = insertPin m pc w.db := by
  by_cases h : pinExists m pc w.db = true
  · left; simp [add_local_pin, h]
  · right; simp [add_local_pin, h]

/-- Behaviour of the external loop when the vendor succeeds with a truthy
pin on every call: exactly `k` pins are obtained, all tagged
`inefable_api`. -/
lemma externalLoop_spec (vendor : Nat → HttpOutcome) (m : Nat)
    (hm : validMonto m) (H : ∀ i, goodOutcome (vendor i)) :
    ∀ (k : Nat) (w : World),
      (externalLoop vendor m k w).1.length = k ∧
      (∀ x ∈ (externalLoop vendor m k w).1, x.source = "inefable_api") := by
  intro k
  induction k with
  | zero => intro w; simp [externalLoop]
  | succ k ih =>
    intro w
    obtain ⟨hs, ht⟩ := H w.vendorCalls
    cases hpc : (pinFromOutcome (vendor w.vendorCalls)).pinCode with
    | none => rw [hpc] at ht; simp [truthyOpt] at ht
    | some pc =>
      rw [hpc] at ht
      have hne : ¬ pc = "" := by simpa [truthyOpt] using ht
      have hstep : externalLoop vendor m (k + 1) w
          = ({ pinCode := pc, source := "inefable_api" }
              :: (externalLoop vendor m k
                   (add_local_pin m pc { w with vendorCalls := w.vendorCalls + 1 }).2).1,
             (externalLoop vendor m k
                   (add_local_pin m pc { w with vendorCalls := w.vendorCalls + 1 }).2).2) := by
        simp [externalLoop, request_pin_eq vendor m w hm, hs, hpc, hne]
      rw [hstep]
      refine ⟨?_, ?_⟩
      · simp only [List.length_cons]
        rw [(ih _).1]
      · intro x hx
        rcases List.mem_cons.mp hx with rfl | hx2
        · rfl
        · exact (ih _).2 x hx2

/-- Shape of request_multiple_pins when the local stock covers the request:
the external branch is never entered, the result is the success dictionary
over the pins taken by the local loop. -/
lemma request_multiple_pins_local_eq (vendor : Nat → HttpOutcome) (m : Nat) (n : Int)
    (useE : Bool) (w : World) (hnd : (w.db.pins.map PinRow.id).Nodup)
    (hn : 1 ≤ n) (hst : n ≤ (stockCount m w.db : Int)) :
    request_multiple_pins vendor m n useE w
      = ({ status := "success",
           pins := some (takeLocalLoop m n.toNat { w with dbReads := w.dbReads + 1 }).1,
           cantidadSolicitada := some n,
           cantidadObtenida :=
             some (takeLocalLoop m n.toNat { w with dbReads := w.dbReads + 1 }).1.length,
           sourcesUsed :=
             some ((takeLocalLoop m n.toNat
               { w with dbReads := w.dbReads + 1 }).1.map ObtainedPin.source).eraseDups },
         (takeLocalLoop m n.toNat { w with dbReads := w.dbReads + 1 }).2) := by
  have hn0 : ¬ n ≤ 0 := by omega
  have hmin : min n ((stockCount m w.db : Nat) : Int) = n := by omega
  have hkmin : min n.toNat (stockCount m w.db) = n.toNat := by
    have := Int.toNat_le.mpr hst
    omega
  have k1 := (takeLocalLoop_spec m n.toNat { w with dbReads := w.dbReads + 1 } hnd).1
  have hlen : (((takeLocalLoop m n.toNat { w with dbReads := w.dbReads + 1 }).1.length : Int)) = n := by
    have hc : (takeLocalLoop m n.toNat { w with dbReads := w.dbReads + 1 }).1.length = n.toNat := by
      rw [k1]; exact hkmin
    rw [hc]
    exact Int.toNat_of_nonneg (by omega)
  have hext : ¬(0 < n - n ∧ useE = true) := by
    intro hcon
    omega
  simp only [request_multiple_pins, get_local_stock, hn0, if_false, hmin]
  rw [if_neg hext]
  simp only [List.append_nil]
  rw [if_pos hlen]

/-- C1: for a package whose local unused-pin count is at least the requested
quantity N (N ≥ 1, in particular for every package with distinct row ids as
guaranteed by the primary key), request_multiple_pins returns status
`success` with exactly N pins, all tagged `local_stock`, makes no vendor
call, and leaves the local unused-pin count at C - N. -/
theorem c1_local_stock_fulfillment (vendor : Nat → HttpOutcome) (m : Nat) (n : Int)
    (useExternalApi : Bool) (w : World)
    (hnd : (w.db.pins.map PinRow.id).Nodup)
    (hn : 1 ≤ n) (hst : n ≤ (stockCount m w.db : Int)) :
    (request_multiple_pins vendor m n useExternalApi w).1.status = "success" ∧
    (∃ ps, (request_multiple_pins vendor m n useExternalApi w).1.pins = some ps ∧
      (ps.length : Int) = n ∧ ∀ x ∈ ps, x.source = "local_stock") ∧
    ((stockCount m (request_multiple_pins vendor m n useExternalApi w).2.db : Int)
      = (stockCount m w.db : Int) - n) ∧
    (request_multiple_pins vendor m n useExternalApi w).2.vendorCalls = w.vendorCalls := by
  have heq := request_multiple_pins_local_eq vendor m n useExternalApi w hnd hn hst
  obtain ⟨k1, k2, k3, k4, k5, k6, k7, k8⟩ :=
    takeLocalLoop_spec m n.toNat { w with dbReads := w.dbReads + 1 } hnd
  have hkmin : min n.toNat (stockCount m w.db) = n.toNat := by
    have := Int.toNat_le.mpr hst
    omega
  rw [heq]
  refine ⟨rfl, ⟨_, rfl, ?_, k2⟩, ?_, k4⟩
  · rw [k1, hkmin]
    exact Int.toNat_of_nonneg (by omega)
  · have k3c : stockCount m (takeLocalLoop m n.toNat { w with dbReads := w.dbReads + 1 }).2.db
        = stockCount m w.db - min n.toNat (stockCount m w.db) := k3
    rw [k3c, hkmin]
    have hle := Int.toNat_le.mpr hst
    omega

lemma toNat_natCast (k : Nat) : ((k : Int)).toNat = k := rfl

/-- C2: for a package with local count C below the requested N, with
external fallback enabled, the vendor reachable and every vendor call
succeeding with a truthy pin code, request_multiple_pins returns `success`
with N pins obtained, exactly C tagged `local_stock` and exactly N - C
tagged `inefable_api`. -/
theorem c2_fallback_fulfillment (vendor : Nat → HttpOutcome) (m : Nat) (n : Int) (w : World)
    (hm : validMonto m) (hnd : (w.db.pins.map PinRow.id).Nodup)
    (hst : (stockCount m w.db : Int) < n) (H : ∀ i, goodOutcome (vendor i)) :
    (request_multiple_pins vendor m n true w).1.status = "success" ∧
    (∃ ps, (request_multiple_pins vendor m n true w).1.pins = some ps ∧
      (request_multiple_pins vendor m n true w).1.cantidadObtenida = some ps.length ∧
      (ps.length : Int) = n ∧
      (ps.filter (fun x => x.source == "local_stock")).length = stockCount m w.db ∧
      ((ps.filter (fun x => x.source == "inefable_api")).length : Int)
        = n - stockCount m w.db) := by
  have hn0 : ¬ n ≤ 0 := by omega
  have hminS : min n ((stockCount m w.db : Nat) : Int) = ((stockCount m w.db : Nat) : Int) := by
    omega
  obtain ⟨k1, k2, k3, k4, k5, k6, k7, k8⟩ :=
    takeLocalLoop_spec m (stockCount m w.db) { w with dbReads := w.dbReads + 1 } hnd
  have hkmin : min (stockCount m w.db) (stockCount m w.db) = stockCount m w.db :=
    min_self _
  have k1c : (takeLocalLoop m (stockCount m w.db)
      { w with dbReads := w.dbReads + 1 }).1.length = stockCount m w.db := by
    rw [k1]; exact hkmin
  have hg := H ((takeLocalLoop m (stockCount m w.db)
      { w with dbReads := w.dbReads + 1 }).2.vendorCalls)
  have havail : (is_available vendor (takeLocalLoop m (stockCount m w.db)
      { w with dbReads := w.dbReads + 1 }).2).1 = true :=
    is_available_true _ _ (goodOutcome_makeRequest _ hg)
  obtain ⟨e1, e2⟩ := externalLoop_spec vendor m hm H (n - (stockCount m w.db : Int)).toNat
    (is_available vendor (takeLocalLoop m (stockCount m w.db)
      { w with dbReads := w.dbReads + 1 }).2).2
  have hext : 0 < n - ((stockCount m w.db : Nat) : Int) ∧ True := ⟨by omega, trivial⟩
  have hlen : ((((takeLocalLoop m (stockCount m w.db)
        { w with dbReads := w.dbReads + 1 }).1
      ++ (externalLoop vendor m (n - (stockCount m w.db : Int)).toNat
          (is_available vendor (takeLocalLoop m (stockCount m w.db)
            { w with dbReads := w.dbReads + 1 }).2).2).1).length : Int)) = n := by
    rw [List.length_append, k1c, e1]
    have h0 : 0 ≤ n - (stockCount m w.db : Int) := by omega
    have := Int.toNat_of_nonneg h0
    omega
  simp only [request_multiple_pins, get_local_stock, hn0, if_false, hminS, toNat_natCast]
  rw [if_pos hext, if_pos havail, if_pos hlen]
  refine ⟨rfl, _, rfl, rfl, hlen, ?_, ?_⟩
  · rw [List.filter_append]
    have hfl : ((takeLocalLoop m (stockCount m w.db)
        { w with dbReads := w.dbReads + 1 }).1.filter
          (fun x => x.source == "local_stock"))
        = (takeLocalLoop m (stockCount m w.db) { w with dbReads := w.dbReads + 1 }).1 := by
      apply List.filter_eq_self.mpr
      intro x hx
      rw [k2 x hx]
      decide
    have hfe : ((externalLoop vendor m (n - (stockCount m w.db : Int)).toNat
          (is_available vendor (takeLocalLoop m (stockCount m w.db)
            { w with dbReads := w.dbReads + 1 }).2).2).1.filter
          (fun x => x.source == "local_stock")) = [] := by
      apply List.filter_eq_nil_iff.mpr
      intro x hx
      rw [e2 x hx]
      decide
    rw [hfl, hfe, List.append_nil, k1c]
  · rw [List.filter_append]
    have hfl : ((takeLocalLoop m (stockCount m w.db)
        { w with dbReads := w.dbReads + 1 }).1.filter
          (fun x => x.source == "inefable_api")) = [] := by
      apply List.filter_eq_nil_iff.mpr
      intro x hx
      rw [k2 x hx]
      decide
    have hfe : ((externalLoop vendor m (n - (stockCount m w.db : Int)).toNat
          (is_available vendor (takeLocalLoop m (stockCount m w.db)
            { w with dbReads := w.dbReads + 1 }).2).2).1.filter
          (fun x => x.source == "inefable_api"))
        = (externalLoop vendor m (n - (stockCount m w.db : Int)).toNat
          (is_available vendor (takeLocalLoop m (stockCount m w.db)
            { w with dbReads := w.dbReads + 1 }).2).2).1 := by
      apply List.filter_eq_self.mpr
      intro x hx
      rw [e2 x hx]
      decide
    rw [hfl, hfe, List.nil_append, e1]
    have h0 : 0 ≤ n - (stockCount m w.db : Int) := by omega
    have := Int.toNat_of_nonneg h0
    omega

/-- A one-row inventory: one unused pin for monto 1. -/
def dbOnePin : DBState :=
  { pins := [{ id := 1, montoId := 1, pinCodigo := "AAAA", usado := false }], nextId := 2 }

def wOnePin : World := { db := dbOnePin, vendorCalls := 0, dbReads := 0 }

def vendorTimeout : Nat → HttpOutcome := fun _ => HttpOutcome.timeout

/-- C3 counterexample: with local count C = 1 < N = 2 and external fallback
disabled, request_multiple_pins does NOT return a failure result: it returns
status `partial_success` with no error kind at all. -/
theorem c3_counterexample :
    (request_multiple_pins vendorTimeout 1 2 false wOnePin).1.status = "partial_success" ∧
    (request_multiple_pins vendorTimeout 1 2 false wOnePin).1.errorType = none := by
  exact ⟨rfl, rfl⟩

/-- C3 (amended): for local count C < N with external fallback disabled, the
result is a failure with error kind `no_pins_available` only when C = 0;
when 0 < C < N it is `partial_success` reporting exactly C pins obtained.
In both cases exactly the C unused rows of the package are removed (no other
row is touched), the count obtained is reported, and no vendor call is
made. -/
theorem c3_no_fallback_no_failure (vendor : Nat → HttpOutcome) (m : Nat) (n : Int) (w : World)
    (hnd : (w.db.pins.map PinRow.id).Nodup)
    (hst : (stockCount m w.db : Int) < n) :
    ((request_multiple_pins vendor m n false w).1.status
      = if stockCount m w.db = 0 then "error" else "partial_success") ∧
    (stockCount m w.db = 0 →
      (request_multiple_pins vendor m n false w).1.errorType = some "no_pins_available") ∧
    (0 < stockCount m w.db →
      (request_multiple_pins vendor m n false w).1.cantidadObtenida
        = some (stockCount m w.db)) ∧
    stockCount m (request_multiple_pins vendor m n false w).2.db = 0 ∧
    (request_multiple_pins vendor m n false w).2.db.pins.length + stockCount m w.db
      = w.db.pins.length ∧
    (request_multiple_pins vendor m n false w).2.db.pins.Sublist w.db.pins ∧
    (request_multiple_pins vendor m n false w).2.vendorCalls = w.vendorCalls := by
  have hn0 : ¬ n ≤ 0 := by omega
  have hminS : min n ((stockCount m w.db : Nat) : Int) = ((stockCount m w.db : Nat) : Int) := by
    omega
  obtain ⟨k1, k2, k3, k4, k5, k6, k7, k8⟩ :=
    takeLocalLoop_spec m (stockCount m w.db) { w with dbReads := w.dbReads + 1 } hnd
  have hkmin : min (stockCount m w.db) (stockCount m w.db) = stockCount m w.db :=
    min_self _
  have k1c : (takeLocalLoop m (stockCount m w.db)
      { w with dbReads := w.dbReads + 1 }).1.length = stockCount m w.db := by
    rw [k1]; exact hkmin
  have k3c : stockCount m (takeLocalLoop m (stockCount m w.db)
      { w with dbReads := w.dbReads + 1 }).2.db = 0 := by
    have hx : stockCount m (takeLocalLoop m (stockCount m w.db)
        { w with dbReads := w.dbReads + 1 }).2.db
        = stockCount m w.db
          - min (stockCount m w.db) (stockCount m w.db) := k3
    rw [hx, hkmin]
    omega
  have k6c : (takeLocalLoop m (stockCount m w.db)
      { w with dbReads := w.dbReads + 1 }).2.db.pins.length + stockCount m w.db
      = w.db.pins.length := by
    have hx : (takeLocalLoop m (stockCount m w.db)
        { w with dbReads := w.dbReads + 1 }).2.db.pins.length
        + min (stockCount m w.db) (stockCount m w.db) = w.db.pins.length := k6
    rw [hkmin] at hx
    exact hx
  have hlenne : ¬ (((takeLocalLoop m (stockCount m w.db)
      { w with dbReads := w.dbReads + 1 }).1.length : Int) = n) := by
    rw [k1c]; omega
  simp only [request_multiple_pins, get_local_stock, hn0, if_false, hminS, toNat_natCast,
    Bool.false_eq_true, and_false, List.append_nil]
  rw [if_neg hlenne]
  by_cases hz : stockCount m w.db = 0
  · have hzl : ¬ (0 < (takeLocalLoop m (stockCount m w.db)
        { w with dbReads := w.dbReads + 1 }).1.length) := by
      rw [k1c]; omega
    rw [if_neg hzl, if_pos hz]
    exact ⟨rfl, fun _ => rfl, fun hc => absurd hz (by omega), k3c, k6c, k5, k4⟩
  · have hzl : 0 < (takeLocalLoop m (stockCount m w.db)
        { w with dbReads := w.dbReads + 1 }).1.length := by
      rw [k1c]; omega
    rw [if_pos hzl, if_neg hz]
    exact ⟨rfl, fun hc => absurd hc hz, fun _ => by rw [k1c], k3c, k6c, k5, k4⟩

/-- C4: a non-positive requested quantity yields the `validation` error
dictionary, and the world is untouched: no vendor call (neither the
availability probe nor request_pin), no inventory read, no inventory row
removed. -/
theorem c4_nonpositive_validation (vendor : Nat → HttpOutcome) (m : Nat) (n : Int)
    (useExternalApi : Bool) (w : World) (hn : n ≤ 0) :
    (request_multiple_pins vendor m n useExternalApi w).1.status = "error" ∧
    (request_multiple_pins vendor m n useExternalApi w).1.errorType = some "validation" ∧
    (request_multiple_pins vendor m n useExternalApi w).2 = w := by
  refine ⟨?_, ?_, ?_⟩ <;> simp [request_multiple_pins, hn]

/-- C4 witness at quantity 0. -/
theorem c4_witness :
    (request_multiple_pins vendorTimeout 1 0 true wOnePin).1.status = "error" ∧
    (request_multiple_pins vendorTimeout 1 0 true wOnePin).1.errorType = some "validation" ∧
    (request_multiple_pins vendorTimeout 1 0 true wOnePin).2 = wOnePin :=
  c4_nonpositive_validation vendorTimeout 1 0 true wOnePin (by decide)

/-- The three network-level failure modes of a vendor request: timeout,
connection failure, non-2xx response. -/
def isNetworkFailure (o : HttpOutcome) : Prop :=
  o = HttpOutcome.timeout ∨ o = HttpOutcome.connError ∨ ∃ c, o = HttpOutcome.httpError c

/-- C5: every vendor failure mode is converted into a typed error result and
propagated as a value, never as an exception: `_make_request` maps the three
network failures to dictionaries with status `error` and an `error_type`;
an unparseable 200 payload makes request_pin return the typed `parse_error`
dictionary; request_pin, is_available, check_stock_availability,
request_pin_with_fallback and request_multiple_pins all return typed results
under these failures (the embedding is total, so no exception exists by
construction; the conjuncts state the typed-error shape of each result). -/
theorem c5_failures_are_typed_results (o : HttpOutcome) (ho : isNetworkFailure o) :
    ((makeRequest o).status = some "error" ∧ (makeRequest o).errorType.isSome = true) ∧
    (∀ t, extract_pin_from_text t = none →
      (pinFromOutcome (HttpOutcome.okText t)).status = some "error" ∧
      (pinFromOutcome (HttpOutcome.okText t)).errorType = some "parse_error") ∧
    (∀ (vendor : Nat → HttpOutcome) (m : Nat) (w : World), validMonto m →
      vendor w.vendorCalls = o →
      (request_pin vendor m w).1.status = some "error" ∧
      (request_pin vendor m w).1.errorType.isSome = true) ∧
    (∀ (vendor : Nat → HttpOutcome) (w : World), vendor w.vendorCalls = o →
      (is_available vendor w).1 = false) ∧
    (∀ (vendor : Nat → HttpOutcome) (m : Nat) (w : World), validMonto m →
      vendor w.vendorCalls = o →
      (check_stock_availability vendor m w).1.status = some "error" ∧
      (check_stock_availability vendor m w).1.available = some false) ∧
    (∀ (vendor : Nat → HttpOutcome) (m : Nat) (w : World), validMonto m →
      vendor w.vendorCalls = o → stockCount m w.db = 0 →
      (request_pin_with_fallback vendor m true w).1.status = "error" ∧
      (request_pin_with_fallback vendor m true w).1.errorType = some "no_stock_no_api") ∧
    (∀ (vendor : Nat → HttpOutcome) (m : Nat) (n : Int) (w : World), 1 ≤ n →
      vendor w.vendorCalls = o → stockCount m w.db = 0 →
      (request_multiple_pins vendor m n true w).1.status = "error" ∧
      (request_multiple_pins vendor m n true w).1.errorType = some "no_pins_available") := by
  have hmk : (makeRequest o).status = some "error" ∧ (makeRequest o).errorType.isSome = true := by
    rcases ho with rfl | rfl | ⟨c, rfl⟩ <;> exact ⟨rfl, rfl⟩
  have hne : ¬ (makeRequest o).status = some "success" := by
    rw [hmk.1]; simp
  have hpo : pinFromOutcome o = makeRequest o := by
    simp [pinFromOutcome, hne]
  refine ⟨hmk, ?_, ?_, ?_, ?_, ?_, ?_⟩
  · intro t ht
    simp [pinFromOutcome, makeRequest, process_pin_response, ht]
  · intro vendor m w hm hv
    rw [request_pin_eq vendor m w hm]
    simp only [hv, hpo]
    exact ⟨hmk.1, hmk.2⟩
  · intro vendor w hv
    exact is_available_false vendor w (by rw [hv]; exact hne)
  · intro vendor m w hm hv
    have : ¬ (makeRequest (vendor w.vendorCalls)).status = some "success" := by
      rw [hv]; exact hne
    constructor <;> simp [check_stock_availability, make_request, hm, this]
  · intro vendor m w hm hv h0
    have hav : (is_available vendor { w with dbReads := w.dbReads + 1 }).1 = false :=
      is_available_false _ _ (by rw [show ({ w with dbReads := w.dbReads + 1 } : World).vendorCalls = w.vendorCalls from rfl, hv]; exact hne)
    constructor <;>
      simp [request_pin_with_fallback, get_local_stock, h0, fallbackExternal, hav]
  · intro vendor m n w hn hv h0
    have hn0 : ¬ n ≤ 0 := by omega
    have hav : (is_available vendor { w with dbReads := w.dbReads + 1 }).1 = false :=
      is_available_false _ _ (by rw [show ({ w with dbReads := w.dbReads + 1 } : World).vendorCalls = w.vendorCalls from rfl, hv]; exact hne)
    have hmin0 : min n ((stockCount m w.db : Nat) : Int) = 0 := by
      rw [h0]; simp; omega
    have hnn : ¬ ((0 : Int) = n) := by omega
    have h0n : 0 < n := by omega
    constructor <;>
      simp [request_multiple_pins, get_local_stock, hn0, hmin0, takeLocalLoop, hav, hnn, h0n]

/-- C6: evaluation of check_stock_availability on the exact vendor response
body "Sin stock disponible" (and nothing else).  The keyword scan does find
"sin stock", but the pin-pattern confirmation step then matches the regex
`[A-Z0-9]{10,20}` (IGNORECASE) against the ten-letter word "disponible"
itself, so the function reports the stock as AVAILABLE — diverging from the
spec, which requires `available = false` for this response. -/
theorem c6_sin_stock_disponible_divergence :
    (check_stock_availability (fun _ => HttpOutcome.okText "Sin stock disponible")
        1 wOnePin).1.available = some true ∧
    containsSubstr
      (strLower (dataToText (makeRequest (HttpOutcome.okText "Sin stock disponible")).data))
      "sin stock" = true ∧
    hasPinPattern
      (strLower (dataToText (makeRequest (HttpOutcome.okText "Sin stock disponible")).data))
      = true := by
  refine ⟨by decide, by decide, by decide⟩

lemma check_stock_availability_db (vendor : Nat → HttpOutcome) (m : Nat) (w : World) :
    (check_stock_availability vendor m w).2.db = w.db := by
  by_cases hm : validMonto m
  · by_cases hs : (makeRequest (vendor w.vendorCalls)).status = some "success"
    · simp [check_stock_availability, make_request, hm, hs]
    · simp [check_stock_availability, make_request, hm, hs]
  · simp [check_stock_availability, hm]

/-- C7: the combined availability check never mutates the inventory: the
database after check_combined_stock (local count read, vendor availability
probe and vendor stock probe included) is exactly the database before, and
the same holds for the vendor-side check taken alone. -/
theorem c7_check_combined_stock_preserves_inventory (vendor : Nat → HttpOutcome)
    (m : Nat) (w : World) :
    (check_combined_stock vendor m w).2.db = w.db ∧
    (check_stock_availability vendor m w).2.db = w.db := by
  refine ⟨?_, check_stock_availability_db vendor m w⟩
  have h1 : ((is_available vendor { w with dbReads := w.dbReads + 1 }).2).db = w.db := by
    rw [is_available_db]
  have h2 : (check_stock_availability vendor m
      (is_available vendor { w with dbReads := w.dbReads + 1 }).2).2.db
      = ((is_available vendor { w with dbReads := w.dbReads + 1 }).2).db :=
    check_stock_availability_db vendor m _
  cases hav : (is_available vendor { w with dbReads := w.dbReads + 1 }).1 with
  | false =>
    simp [check_combined_stock, get_local_stock, hav, h1]
  | true =>
    simp [check_combined_stock, get_local_stock, hav, h2, h1]

lemma insertBatchLoop_key (m : Nat) : ∀ (codes : List String) (db : DBState),
    (insertBatchLoop m codes db).pins.map (fun p => (p.montoId, p.pinCodigo))
      = db.pins.map (fun p => (p.montoId, p.pinCodigo))
        ++ ((codes.map String.trim).filter (fun t => !(t == ""))).map (fun t => (m, t)) := by
  intro codes
  induction codes with
  | nil => intro db; simp [insertBatchLoop]
  | cons c rest ih =>
    intro db
    by_cases hc : c.trim = ""
    · simp [insertBatchLoop, hc, ih]
    · have hcb : (c.trim == "") = false := by simp [hc]
      simp only [insertBatchLoop, if_neg hc, ih, List.map_cons, List.filter_cons, hcb,
        Bool.not_false, if_true, List.map_cons]
      simp [insertPin]

/-- C8: bulk insertion inserts exactly the stripped non-empty codes (in
order, each stored stripped, every one for the given package), skips empty
or whitespace-only entries, returns the number of rows actually inserted,
and never deduplicates: the (package, code) multiset grows by exactly the
multiset of stripped non-empty entries, so an already-present code is
inserted again. -/
theorem c8_add_pins_batch_spec (m : Nat) (codes : List String) (db : DBState) :
    (add_pins_batch m codes db).2.pins.map (fun p => (p.montoId, p.pinCodigo))
      = db.pins.map (fun p => (p.montoId, p.pinCodigo))
        ++ ((codes.map String.trim).filter (fun t => !(t == ""))).map (fun t => (m, t)) ∧
    (add_pins_batch m codes db).1 + db.pins.length
      = (add_pins_batch m codes db).2.pins.length ∧
    ∀ mc : Nat × String,
      ((add_pins_batch m codes db).2.pins.map (fun p => (p.montoId, p.pinCodigo))).count mc
        = (db.pins.map (fun p => (p.montoId, p.pinCodigo))).count mc
          + (((codes.map String.trim).filter (fun t => !(t == ""))).map
              (fun t => (m, t))).count mc := by
  have hkey := insertBatchLoop_key m codes db
  refine ⟨hkey, ?_, ?_⟩
  · have hlen := congrArg List.length hkey
    simp only [List.length_map, List.length_append] at hlen
    have hflen : ((codes.map String.trim).filter (fun t => !(t == ""))).length
        = (codes.filter (fun p => !(p.trim == ""))).length := by
      rw [List.filter_map]
      rw [List.length_map]
      have hfe : ((fun t => !(t == "")) ∘ String.trim) = (fun p => !(p.trim == "")) := rfl
      rw [hfe]
    simp only [add_pins_batch]
    omega
  · intro mc
    have hkey2 : (add_pins_batch m codes db).2.pins.map (fun p => (p.montoId, p.pinCodigo))
        = db.pins.map (fun p => (p.montoId, p.pinCodigo))
          ++ ((codes.map String.trim).filter (fun t => !(t == ""))).map (fun t => (m, t)) :=
      hkey
    rw [hkey2]
    exact List.count_append mc _ _

/-! ### SQL MIN lemmas -/

lemma minNat?_eq_none_iff : ∀ (l : List Nat), minNat? l = none ↔ l = [] := by
  intro l
  cases l with
  | nil => simp [minNat?]
  | cons a t =>
    simp only [minNat?]
    cases minNat? t <;> simp

lemma minNat?_mem : ∀ (l : List Nat) (x : Nat), minNat? l = some x → x ∈ l := by
  intro l
  induction l with
  | nil => intro x h; simp [minNat?] at h
  | cons a t ih =>
    intro x h
    simp only [minNat?] at h
    cases ht : minNat? t with
    | none =>
      rw [ht] at h
      simp only [Option.some.injEq] at h
      simp [← h]
    | some y =>
      rw [ht] at h
      simp only [Option.some.injEq] at h
      rcases min_cases a y with ⟨hm, _⟩ | ⟨hm, _⟩
      · rw [hm] at h; simp [← h]
      · rw [hm] at h
        subst h
        exact List.mem_cons_of_mem a (ih y ht)

lemma minNat?_le : ∀ (l : List Nat) (x : Nat), minNat? l = some x → ∀ y ∈ l, x ≤ y := by
  intro l
  induction l with
  | nil => intro x h; simp [minNat?] at h
  | cons a t ih =>
    intro x h y hy
    simp only [minNat?] at h
    cases ht : minNat? t with
    | none =>
      have htnil : t = [] := (minNat?_eq_none_iff t).mp ht
      rw [ht] at h
      simp only [Option.some.injEq] at h
      subst htnil
      rcases List.mem_cons.mp hy with rfl | hyt
      · omega
      · simp at hyt
    | some z =>
      rw [ht] at h
      simp only [Option.some.injEq] at h
      subst h
      rcases List.mem_cons.mp hy with rfl | hyt
      · omega
      · exact le_trans (min_le_right _ _) (ih z ht y hyt)

lemma minNat?_eq_some (l : List Nat) (x : Nat) (hm : x ∈ l) (hle : ∀ y ∈ l, x ≤ y) :
    minNat? l = some x := by
  cases hz : minNat? l with
  | none =>
    rw [minNat?_eq_none_iff] at hz
    subst hz
    simp at hm
  | some z =>
    have hzm := minNat?_mem l z hz
    have h1 : z ≤ x := minNat?_le l z hz x hm
    have h2 : x ≤ z := hle z hzm
    have : z = x := le_antisymm h1 h2
    rw [this]

/-- C9: with pairwise-distinct row ids (the primary-key invariant), the
duplicate-removal operation keeps a row exactly when its id is minimal in
its own (pin_codigo, monto_id) group — i.e. it keeps precisely the
lowest-id row of every group and deletes the rest — deletes only existing
rows, and returns the number of rows deleted. -/
theorem c9_remove_duplicate_pins_spec (db : DBState)
    (hnd : (db.pins.map PinRow.id).Nodup) :
    (∀ p, p ∈ (remove_duplicate_pins db).2.pins ↔
      (p ∈ db.pins ∧ ∀ q ∈ db.pins,
        q.pinCodigo = p.pinCodigo → q.montoId = p.montoId → p.id ≤ q.id)) ∧
    (remove_duplicate_pins db).1 + (remove_duplicate_pins db).2.pins.length
      = db.pins.length ∧
    (remove_duplicate_pins db).2.pins.Sublist db.pins := by
  have hinj : ∀ r ∈ db.pins, ∀ s ∈ db.pins, r.id = s.id → r = s :=
    List.inj_on_of_nodup_map hnd
  refine ⟨?_, ?_, ?_⟩
  · intro p
    constructor
    · intro hp
      have hp' : p ∈ db.pins.filter (fun r =>
          db.pins.any (fun q => minIdForKey db.pins q.pinCodigo q.montoId == some r.id)) := hp
      obtain ⟨hpin, hkeep⟩ := List.mem_filter.mp hp'
      obtain ⟨q, hq, hqmin⟩ := List.any_eq_true.mp hkeep
      rw [beq_iff_eq] at hqmin
      simp only [minIdForKey] at hqmin
      have hmem' : p.id ∈ (db.pins.filter (fun r =>
          r.pinCodigo == q.pinCodigo && r.montoId == q.montoId)).map PinRow.id :=
        minNat?_mem _ _ hqmin
      obtain ⟨r, hrG, hrid⟩ := List.mem_map.mp hmem'
      have hrdb : r ∈ db.pins := (List.mem_filter.mp hrG).1
      have hrp : r = p := hinj r hrdb p hpin hrid
      have hpG : p ∈ db.pins.filter (fun r =>
          r.pinCodigo == q.pinCodigo && r.montoId == q.montoId) := hrp ▸ hrG
      have hpq : p.pinCodigo = q.pinCodigo ∧ p.montoId = q.montoId := by
        have hb := (List.mem_filter.mp hpG).2
        simpa [Bool.and_eq_true, beq_iff_eq] using hb
      refine ⟨hpin, ?_⟩
      intro q' hq' hc hm'
      have hq'G : q' ∈ db.pins.filter (fun r =>
          r.pinCodigo == q.pinCodigo && r.montoId == q.montoId) := by
        apply List.mem_filter.mpr
        refine ⟨hq', ?_⟩
        rw [Bool.and_eq_true, beq_iff_eq, beq_iff_eq, hc, hm']
        exact ⟨hpq.1, hpq.2⟩
      exact minNat?_le _ _ hqmin q'.id (List.mem_map_of_mem PinRow.id hq'G)
    · rintro ⟨hpin, hmin⟩
      show p ∈ db.pins.filter (fun r =>
          db.pins.any (fun q => minIdForKey db.pins q.pinCodigo q.montoId == some r.id))
      apply List.mem_filter.mpr
      refine ⟨hpin, ?_⟩
      apply List.any_eq_true.mpr
      refine ⟨p, hpin, ?_⟩
      rw [beq_iff_eq]
      simp only [minIdForKey]
      apply minNat?_eq_some
      · exact List.mem_map_of_mem PinRow.id (List.mem_filter.mpr ⟨hpin, by simp⟩)
      · intro y hy
        obtain ⟨r, hrG, hrid⟩ := List.mem_map.mp hy
        obtain ⟨hrdb, hrkey⟩ := List.mem_filter.mp hrG
        have hk : r.pinCodigo = p.pinCodigo ∧ r.montoId = p.montoId := by
          simpa [Bool.and_eq_true, beq_iff_eq] using hrkey
        have hle := hmin r hrdb hk.1 hk.2
        omega
  · have hle : (db.pins.filter (fun r =>
        db.pins.any (fun q => minIdForKey db.pins q.pinCodigo q.montoId == some r.id))).length
        ≤ db.pins.length := List.length_filter_le _ _
    simp only [remove_duplicate_pins]
    omega
  · exact List.filter_sublist _

/-- C10: if a row with the same (pin_codigo, monto_id) pair already exists
(used or not), add_local_pin refuses with (False, "Pin ya existe en el
stock") and leaves the table unchanged; consequently a vendor-sourced pin
equal to an already-stored code is not re-inserted during the fallback of
request_pin_with_fallback, which still returns the pin successfully. -/
theorem c10_duplicate_pin_not_reinserted (m : Nat) (pc : String) (w : World)
    (hex : pinExists m pc w.db = true) :
    (add_local_pin m pc w).1 = (false, "Pin ya existe en el stock") ∧
    (add_local_pin m pc w).2.db = w.db ∧
    (∀ (vendor : Nat → HttpOutcome), stockCount m w.db = 0 → validMonto m →
      (makeRequest (vendor w.vendorCalls)).status = some "success" →
      vendor (w.vendorCalls + 1)
        = HttpOutcome.okJson (some "success") (some [("pin", pc)]) →
      pc ≠ "" →
      (request_pin_with_fallback vendor m true w).1.status = "success" ∧
      (request_pin_with_fallback vendor m true w).1.pinCode = some pc ∧
      (request_pin_with_fallback vendor m true w).1.source = some "inefable_api" ∧
      (request_pin_with_fallback vendor m true w).2.db = w.db) := by
  have hneb : ∀ pcx : String, pcx ≠ "" → (pcx == "") = false := by
    intro pcx h; simp [h]
  refine ⟨by simp [add_local_pin, hex], by simp [add_local_pin, hex], ?_⟩
  intro vendor h0 hm hok hv1 hne
  have hpin : pinFromOutcome (HttpOutcome.okJson (some "success") (some [("pin", pc)]))
      = { status := some "success", pinCode := some pc } := by
    simp [pinFromOutcome, makeRequest, process_pin_response, pyOr, truthyOpt,
      List.lookup, hneb pc hne]
  have hfa : (is_available vendor { w with dbReads := w.dbReads + 1 }).1 = true :=
    is_available_true _ _ hok
  have hia2 : (is_available vendor { w with dbReads := w.dbReads + 1 }).2
      = { w with vendorCalls := w.vendorCalls + 1, dbReads := w.dbReads + 1 } := by
    rw [is_available_db]
  have hreq : request_pin vendor m
        { w with vendorCalls := w.vendorCalls + 1, dbReads := w.dbReads + 1 }
      = ({ status := some "success", pinCode := some pc },
         { w with vendorCalls := w.vendorCalls + 1 + 1, dbReads := w.dbReads + 1 }) := by
    rw [request_pin_eq vendor m _ hm]
    rw [show ({ w with vendorCalls := w.vendorCalls + 1, dbReads := w.dbReads + 1 }
        : World).vendorCalls = w.vendorCalls + 1 from rfl, hv1, hpin]
  have hadd : (add_local_pin m pc
        { w with vendorCalls := w.vendorCalls + 1 + 1, dbReads := w.dbReads + 1 }).2.db
      = w.db := by
    simp [add_local_pin, hex]
  refine ⟨?_, ?_, ?_, ?_⟩ <;>
    simp [request_pin_with_fallback, get_local_stock, h0, fallbackExternal, hfa, hia2,
      hreq, truthyOpt, hneb pc hne, hadd]

/-- Two unused pins for monto 1. -/
def dbTwoPins : DBState :=
  { pins := [{ id := 1, montoId := 1, pinCodigo := "PINA", usado := false },
             { id := 2, montoId := 1, pinCodigo := "PINB", usado := false }], nextId := 3 }

def wTwoPins : World := { db := dbTwoPins, vendorCalls := 0, dbReads := 0 }

/-- A vendor that always answers structured JSON success with a pin. -/
def vendorGood : Nat → HttpOutcome :=
  fun _ => HttpOutcome.okJson (some "success") (some [("pin", "ABCDEFGH1234")])

/-- An inventory with a duplicated (code, package) pair and a third row of
another package. -/
def dbDupPins : DBState :=
  { pins := [{ id := 1, montoId := 1, pinCodigo := "A", usado := false },
             { id := 2, montoId := 1, pinCodigo := "A", usado := false },
             { id := 3, montoId := 2, pinCodigo := "A", usado := false }], nextId := 4 }

/-- One consumed (usado = TRUE) row: unused stock is 0, but the code is
still present for the duplicate check. -/
def dbUsedPin : DBState :=
  { pins := [{ id := 1, montoId := 1, pinCodigo := "ZZZZ", usado := true }], nextId := 2 }

def wUsedPin : World := { db := dbUsedPin, vendorCalls := 0, dbReads := 0 }

/-- A vendor whose probe succeeds and whose recharge call returns the code
ZZZZ that is already stored locally. -/
def vendorDupPin : Nat → HttpOutcome :=
  fun i => if i = 0 then HttpOutcome.okJson (some "success") (some [])
           else HttpOutcome.okJson (some "success") (some [("pin", "ZZZZ")])

/-- C1 witness: stock 2, request 2. -/
theorem c1_witness :
    (request_multiple_pins vendorTimeout 1 2 true wTwoPins).1.status = "success" ∧
    (request_multiple_pins vendorTimeout 1 2 true wTwoPins).2.vendorCalls
      = wTwoPins.vendorCalls :=
  ⟨(c1_local_stock_fulfillment vendorTimeout 1 2 true wTwoPins (by decide) (by decide)
      (by decide)).1,
   (c1_local_stock_fulfillment vendorTimeout 1 2 true wTwoPins (by decide) (by decide)
      (by decide)).2.2.2⟩

/-- C2 witness: stock 1, request 3, vendor always succeeding. -/
theorem c2_witness :
    (request_multiple_pins vendorGood 1 3 true wOnePin).1.status = "success" :=
  (c2_fallback_fulfillment vendorGood 1 3 wOnePin (by decide) (by decide) (by decide)
    (fun _ => (by decide : goodOutcome
      (HttpOutcome.okJson (some "success") (some [("pin", "ABCDEFGH1234")]))))).1

/-- C3 (amended) witness: stock 1, request 2, fallback disabled. -/
theorem c3_witness :
    ((request_multiple_pins vendorTimeout 1 2 false wOnePin).1.status
      = if stockCount 1 wOnePin.db = 0 then "error" else "partial_success") ∧
    stockCount 1 (request_multiple_pins vendorTimeout 1 2 false wOnePin).2.db = 0 :=
  ⟨(c3_no_fallback_no_failure vendorTimeout 1 2 wOnePin (by decide) (by decide)).1,
   (c3_no_fallback_no_failure vendorTimeout 1 2 wOnePin (by decide) (by decide)).2.2.2.1⟩

/-- C5 witness at the timeout failure mode. -/
theorem c5_witness :
    (makeRequest HttpOutcome.timeout).status = some "error" ∧
    (makeRequest HttpOutcome.timeout).errorType.isSome = true :=
  (c5_failures_are_typed_results HttpOutcome.timeout (Or.inl rfl)).1

/-- C9 witness on a table with one duplicated pair. -/
theorem c9_witness :
    (remove_duplicate_pins dbDupPins).1 + (remove_duplicate_pins dbDupPins).2.pins.length
      = dbDupPins.pins.length :=
  (c9_remove_duplicate_pins_spec dbDupPins (by decide)).2.1

/-- C10 witness: the already-stored code ZZZZ is refused by add_local_pin
and not re-inserted by the fallback. -/
theorem c10_witness :
    (add_local_pin 1 "ZZZZ" wUsedPin).1 = (false, "Pin ya existe en el stock") ∧
    (request_pin_with_fallback vendorDupPin 1 true wUsedPin).2.db = wUsedPin.db :=
  ⟨(c10_duplicate_pin_not_reinserted 1 "ZZZZ" wUsedPin (by decide)).1,
   ((c10_duplicate_pin_not_reinserted 1 "ZZZZ" wUsedPin (by decide)).2.2 vendorDupPin
      (by decide) (by decide) (by decide) (by decide) (by decide)).2.2.2⟩
